import Mathlib

/-!
# Workhour calculator: shallow embedding and verification

This file embeds the day-classification / monthly-aggregation engine of the
workhour calculator (the `/results` route loader) and its date-range parser
(`src/lib/dateUtils.ts`), and proves or refutes the specified properties.

Conventions of the embedding:
* A JavaScript `Date` produced by `new Date(y, m, d)` at midnight is modelled
  by `JSDate` with a 0-based `month` and 1-based `day`, exactly as in JS.
* A JavaScript array of `WorkDayType` is modelled by `List (Option WorkDayType)`
  where `none` is an array hole (created by writing past the end, read back as
  `undefined`).  Writing `days[i] = v` is `jsSet`, which extends the array with
  holes when `i` is beyond the current length, as JS assignment does.
* `date-fns` helpers are embedded by their calendar meaning:
  `differenceInDays(date, startOfYear(date))` is the 0-based day-of-year of
  `date` within its own year, `isWeekend` tests the weekday, `getDaysInMonth`
  is the month length, and `parse`/`format` with the `dd.MM` / `MM.dd`
  patterns are modelled character by character.
-/

namespace Workhour

/-! ## Calendar primitives -/

/-- Gregorian leap-year test, as used by `date-fns` / the JS `Date`. -/
def isLeapYear (y : Nat) : Bool :=
  (y % 4 == 0 && y % 100 != 0) || y % 400 == 0

/-- `differenceInDays(endOfYear(d), startOfYear(d)) + 1` for a date in year `y`. -/
def daysInYear (y : Nat) : Nat := if isLeapYear y then 366 else 365

/-- `getDaysInMonth(new Date(y, m, 1))`: length of 0-based month `m` of year `y`
(0 for indices past December, which the code never queries). -/
def monthLength (y : Nat) (m : Nat) : Nat :=
  match m with
  | 0 => 31
  | 1 => if isLeapYear y then 29 else 28
  | 2 => 31
  | 3 => 30
  | 4 => 31
  | 5 => 30
  | 6 => 31
  | 7 => 31
  | 8 => 30
  | 9 => 31
  | 10 => 30
  | 11 => 31
  | _ => 0

/-- 0-based day-of-year of the first day of 0-based month `m` in year `y`. -/
def monthStartIdx (y : Nat) : Nat → Nat
  | 0 => 0
  | m + 1 => monthStartIdx y m + monthLength y m

/-- A JS `Date` at local midnight: `new Date(year, month, day)` with the JS
conventions (0-based month, 1-based day). -/
structure JSDate where
  year : Nat
  month : Nat
  day : Nat
deriving DecidableEq, Repr

/-- `getDayIndex(date) = differenceInDays(date, startOfYear(date))`: the
0-based day-of-year of the date within its own year. -/
def getDayIndex (d : JSDate) : Nat :=
  monthStartIdx d.year d.month + d.day - 1

/-- Days of the proleptic Gregorian calendar strictly before January 1 of
year `y` (counting from year 1). -/
def daysBeforeYear (y : Nat) : Nat :=
  365 * (y - 1) + (y - 1) / 4 - (y - 1) / 100 + (y - 1) / 400

/-- `getTime()` up to the scale of one day: a linear day number usable for the
JS `<` comparison between two midnight `Date`s. -/
def dayNumber (d : JSDate) : Nat := daysBeforeYear d.year + getDayIndex d

/-- Weekday (0 = Sunday .. 6 = Saturday, as JS `getDay()`) of the day with
0-based day-of-year `idx` in year `y`; calibrated so that 2024-01-01 is Monday. -/
def dayOfWeek (y : Nat) (idx : Nat) : Nat :=
  (daysBeforeYear y + 1 + idx) % 7

/-- `isWeekend(new Date(y, 0, idx + 1))` from `date-fns`. -/
def isWeekendIdx (y : Nat) (idx : Nat) : Bool :=
  dayOfWeek y idx == 0 || dayOfWeek y idx == 6

/-! ## Data model of the results loader -/

/-- A `{start, end}` pair of JS dates.  The `end` field is renamed `stop`
because `end` is a Lean keyword. -/
structure DateRange where
  start : JSDate
  stop : JSDate
deriving DecidableEq, Repr

/-- A `{name, date}` holiday entry. -/
structure Holiday where
  name : String
  date : JSDate
deriving DecidableEq, Repr

/-- The `WorkDayType` enum of the results route. -/
inductive WorkDayType where
  | WORKDAY
  | WEEKEND
  | HOLIDAY
  | VACATION
  | SICK
deriving DecidableEq, Repr

/-- The per-day JS array; `none` is an array hole. -/
abbrev DaysArr := List (Option WorkDayType)

/-- JS array read `days[j]`: `undefined` (here `none`) for holes and for
out-of-bounds indices. -/
def dayAt : DaysArr → Nat → Option WorkDayType
  | [], _ => none
  | x :: _, 0 => x
  | _ :: xs, j + 1 => dayAt xs j

/-- JS array write `days[i] = v`: in-place when `i` is in bounds, otherwise the
array is extended with holes up to `i`. -/
def jsSet : DaysArr → Nat → WorkDayType → DaysArr
  | [], 0, v => [some v]
  | [], i + 1, v => none :: jsSet [] i v
  | _ :: xs, 0, v => some v :: xs
  | x :: xs, i + 1, v => x :: jsSet xs i v

/-- The loop `for (let i = s; i < s + n; i++) days[i] = v`. -/
def markFrom (l : DaysArr) (s : Nat) : Nat → WorkDayType → DaysArr
  | 0, _ => l
  | n + 1, v => markFrom (jsSet l s v) (s + 1) n v

/-- `for (let i = startDateDayIndex; i <= endDateDayIndex; i++) days[i] = v`
for one vacation or sick range. -/
def markRange (l : DaysArr) (r : DateRange) (v : WorkDayType) : DaysArr :=
  markFrom l (getDayIndex r.start) (getDayIndex r.stop + 1 - getDayIndex r.start) v

/-- The final pass `days.forEach((_, index) => { if (isWeekend(...)) days[index]
= WEEKEND })`; `forEach` skips holes, so holes are left untouched. -/
def weekendPass (y : Nat) : Nat → DaysArr → DaysArr
  | _, [] => []
  | idx, x :: xs =>
    (match x with
     | none => none
     | some w => if isWeekendIdx y idx then some WorkDayType.WEEKEND else some w)
      :: weekendPass y (idx + 1) xs

/-- The per-day classification of the loader: start from all-`WORKDAY`, then
overwrite vacation ranges, sick ranges, holidays, and finally weekends. -/
def classifyDays (year : Nat) (holidays : List Holiday)
    (vacationDates : List DateRange) (sickDates : List DateRange) : DaysArr :=
  let days : DaysArr := List.replicate (daysInYear year) (some WorkDayType.WORKDAY)
  let days := vacationDates.foldl (fun a r => markRange a r WorkDayType.VACATION) days
  let days := sickDates.foldl (fun a r => markRange a r WorkDayType.SICK) days
  let days := holidays.foldl (fun a h => jsSet a (getDayIndex h.date) WorkDayType.HOLIDAY) days
  weekendPass year 0 days

/-! ## Monthly aggregation

The loader builds its month slices from `new Date(new Date().getFullYear(),
monthIndex, 1)` — i.e. from the **wall-clock** year, not the target year.  The
wall-clock year is made an explicit `currentYear` parameter here. -/

/-- `format(monthStart, 'MMMM')`. -/
def monthName (m : Nat) : String :=
  ["January", "February", "March", "April", "May", "June", "July",
   "August", "September", "October", "November", "December"].getD m ""

/-- One entry of the loader's `daysPerMonth` intermediate array. -/
structure MonthSlice where
  monthName : String
  daysInMonth : Nat
  monthDays : DaysArr
deriving Repr

/-- `daysPerMonth`: for each of the 12 months, slice the day array using the
month boundaries of the wall-clock year `currentYear`. -/
def daysPerMonth (currentYear : Nat) (days : DaysArr) : List MonthSlice :=
  (List.range 12).map (fun monthIndex =>
    let monthStart : JSDate := ⟨currentYear, monthIndex, 1⟩
    let daysInMonth := monthLength currentYear monthIndex
    { monthName := monthName monthIndex,
      daysInMonth := daysInMonth,
      monthDays := (days.drop (getDayIndex monthStart)).take daysInMonth })

/-- A `{start, end}` pair of `"D.M"` display strings (`end` renamed `stop`). -/
structure DisplayRange where
  start : String
  stop : String
deriving DecidableEq, Repr

/-- The template string `` `${d}.${m}` ``. -/
def dm (d : Int) (m : Nat) : String := toString d ++ "." ++ toString m

/-- The mutable locals of the per-month aggregation loop.  The `-1` sentinel of
the source is kept as an `Int`. -/
structure AggState where
  vacationRanges : List DisplayRange
  sickRanges : List DisplayRange
  nVacationDays : Nat
  nSickDays : Nat
  currentVacationStart : Int
  currentSickStart : Int
deriving DecidableEq, Repr

def initAggState : AggState := ⟨[], [], 0, 0, -1, -1⟩

/-- One iteration of the loop over `month.monthDays`, reading day `i` as `d`. -/
def aggStep (monthIndex : Nat) (st : AggState) (i : Nat) (d : Option WorkDayType) : AggState :=
  if d = some WorkDayType.VACATION then
    let st1 := { st with nVacationDays := st.nVacationDays + 1 }
    let st2 :=
      if st1.currentVacationStart = -1 then
        { st1 with currentVacationStart := (i : Int) }
      else st1
    if st2.currentSickStart ≠ -1 then
      { st2 with
        sickRanges := st2.sickRanges ++
          [⟨dm (st2.currentSickStart + 1) (monthIndex + 1), dm (i : Int) (monthIndex + 1)⟩],
        currentSickStart := -1 }
    else st2
  else if d = some WorkDayType.SICK then
    let st1 := { st with nSickDays := st.nSickDays + 1 }
    let st2 :=
      if st1.currentSickStart = -1 then
        { st1 with currentSickStart := (i : Int) }
      else st1
    if st2.currentVacationStart ≠ -1 then
      { st2 with
        vacationRanges := st2.vacationRanges ++
          [⟨dm (st2.currentVacationStart + 1) (monthIndex + 1), dm (i : Int) (monthIndex + 1)⟩],
        currentVacationStart := -1 }
    else st2
  else if d = some WorkDayType.WORKDAY then
    let st1 :=
      if st.currentVacationStart ≠ -1 then
        { st with
          vacationRanges := st.vacationRanges ++
            [⟨dm (st.currentVacationStart + 1) (monthIndex + 1), dm (i : Int) (monthIndex + 1)⟩],
          currentVacationStart := -1 }
      else st
    if st1.currentSickStart ≠ -1 then
      { st1 with
        sickRanges := st1.sickRanges ++
          [⟨dm (st1.currentSickStart + 1) (monthIndex + 1), dm (i : Int) (monthIndex + 1)⟩],
        currentSickStart := -1 }
    else st1
  else st

/-- The loop `for (let i = 0; i < month.monthDays.length; i++)`. -/
def aggLoop (monthIndex : Nat) : Nat → List (Option WorkDayType) → AggState → AggState
  | _, [], st => st
  | i, d :: rest, st => aggLoop monthIndex (i + 1) rest (aggStep monthIndex st i d)

/-- After the loop: a range still open is closed at the last day of the month
(`len` = `month.monthDays.length`). -/
def aggFinalize (monthIndex : Nat) (len : Nat) (st : AggState) : AggState :=
  let st1 :=
    if st.currentVacationStart ≠ -1 then
      { st with
        vacationRanges := st.vacationRanges ++
          [⟨dm (st.currentVacationStart + 1) (monthIndex + 1), dm (len : Int) (monthIndex + 1)⟩] }
    else st
  if st1.currentSickStart ≠ -1 then
    { st1 with
      sickRanges := st1.sickRanges ++
        [⟨dm (st1.currentSickStart + 1) (monthIndex + 1), dm (len : Int) (monthIndex + 1)⟩] }
  else st1

/-- One entry of `workdaysPerMonth`. -/
structure MonthSummary where
  daysInMonth : Nat
  workDays : Nat
  vacationDays : Nat
  sickDays : Nat
  vacationRanges : List DisplayRange
  sickRanges : List DisplayRange
deriving DecidableEq, Repr

def defaultMonthSummary : MonthSummary := ⟨0, 0, 0, 0, [], []⟩

/-- The body of `daysPerMonth.map((month, monthIndex) => ...)`. -/
def aggregateMonth (monthIndex : Nat) (month : MonthSlice) : MonthSummary :=
  let final := aggLoop monthIndex 0 month.monthDays initAggState
  let final := aggFinalize monthIndex month.monthDays.length final
  { daysInMonth := month.daysInMonth,
    workDays := (month.monthDays.filter (fun day => day == some WorkDayType.WORKDAY)).length,
    vacationDays := final.nVacationDays,
    sickDays := final.nSickDays,
    vacationRanges := final.vacationRanges,
    sickRanges := final.sickRanges }

/-- Helper for the indexed `map` over the month slices. -/
def aggMonths : Nat → List MonthSlice → List MonthSummary
  | _, [] => []
  | i, mo :: rest => aggregateMonth i mo :: aggMonths (i + 1) rest

/-- `workdaysPerMonth`: the 12 monthly summaries, again relative to the
wall-clock year `currentYear`. -/
def workdaysPerMonth (currentYear : Nat) (days : DaysArr) : List MonthSummary :=
  aggMonths 0 (daysPerMonth currentYear days)

/-! ## The loader -/

/-- What the loader returns: only the adjusted holiday list when no vacation
dates were supplied, otherwise the day array plus the monthly summaries. -/
inductive LoaderResult where
  | holidaysOnly (holidays : List Holiday)
  | summaries (days : DaysArr) (workdaysPerMonth : List MonthSummary)
deriving Repr

/-- The holiday-policy adjustment steps of the loader, as one function
(the spec's `HolidayPolicyAdjuster`). -/
def adjustHolidays (year : Nat) (subdivision : String)
    (protestantCommunity offOnChristmasEve offOnNewYearsEve : Bool)
    (holidays : List Holiday) : List Holiday :=
  let holidays :=
    if subdivision == "DE-BY" && protestantCommunity then
      holidays.filter (fun holiday => holiday.name != "Mariä Himmelfahrt")
    else holidays
  let holidays :=
    if offOnChristmasEve then holidays ++ [⟨"Christmas Eve", ⟨year, 11, 24⟩⟩] else holidays
  if offOnNewYearsEve then holidays ++ [⟨"New Years Eve", ⟨year, 11, 31⟩⟩] else holidays

/-- The `/results` loader after the holiday fetch, with the fetched holidays
and the wall-clock year as explicit inputs. -/
def loader (currentYear year : Nat) (subdivision : String)
    (protestantCommunity offOnChristmasEve offOnNewYearsEve : Bool)
    (holidaysIn : List Holiday)
    (vacationDates : Option (List DateRange))
    (sickDates : Option (List DateRange)) : LoaderResult :=
  let holidays :=
    if subdivision == "DE-BY" && protestantCommunity then
      holidaysIn.filter (fun holiday => holiday.name != "Mariä Himmelfahrt")
    else holidaysIn
  let holidays :=
    if offOnChristmasEve then holidays ++ [⟨"Christmas Eve", ⟨year, 11, 24⟩⟩] else holidays
  let holidays :=
    if offOnNewYearsEve then holidays ++ [⟨"New Years Eve", ⟨year, 11, 31⟩⟩] else holidays
  match vacationDates with
  | none => LoaderResult.holidaysOnly holidays
  | some vd =>
    let days := classifyDays year holidays vd (sickDates.getD [])
    LoaderResult.summaries days (workdaysPerMonth currentYear days)

/-! ## dateUtils: free-text date / date-range parsing and formatting -/

inductive DateParseErrorCode where
  | EMPTY_DATE_STRING
  | EMPTY_RANGE_AFTER_SEMICOLON
  | DATE_FORMAT_INVALID
  | RANGE_END_BEFORE_START
  | DATE_PARSE_FAILED
  | RANGE_MISSING_DATE
deriving DecidableEq, Repr

structure DateParseError where
  code : DateParseErrorCode
  detail : String
  fieldValue : Option String
deriving DecidableEq, Repr

/-- JS `String.prototype.trim` on the character list. -/
def trimChars (l : List Char) : List Char :=
  ((l.dropWhile Char.isWhitespace).reverse.dropWhile Char.isWhitespace).reverse

/-- JS `s.trim()`. -/
def jsTrim (s : String) : String := String.mk (trimChars s.data)

/-- JS `s.split(sep)` for a one-character separator (`"".split(sep)` is `[""]`). -/
def splitChars (sep : Char) : List Char → List (List Char)
  | [] => [[]]
  | c :: rest =>
    if c = sep then [] :: splitChars sep rest
    else
      match splitChars sep rest with
      | [] => [[c]]
      | p :: ps => (c :: p) :: ps

def jsSplit (s : String) (sep : Char) : List String :=
  (splitChars sep s.data).map String.mk

/-- JS `s.includes(c)` for a single character. -/
def hasChar (l : List Char) (c : Char) : Bool := l.any (fun x => x == c)

def digitVal (c : Char) : Nat := c.toNat - 48

/-- The `date-fns` numeric token matcher for a two-digit pattern (`dd` / `MM`):
greedily match one or two leading digits. -/
def parseUpTo2Digits : List Char → Option (Nat × List Char)
  | [] => none
  | c1 :: rest =>
    if c1.isDigit then
      match rest with
      | c2 :: rest2 =>
        if c2.isDigit then some (digitVal c1 * 10 + digitVal c2, rest2)
        else some (digitVal c1, rest)
      | [] => some (digitVal c1, [])
    else none

/-- Structural part of `date-fns` `parse` for the patterns `dd.MM` / `MM.dd`:
two 1-2 digit numbers separated by a literal `.`, consuming the whole string. -/
def structParse2 (s : String) : Option (Nat × Nat) :=
  match parseUpTo2Digits s.data with
  | some (a, '.' :: rest) =>
    match parseUpTo2Digits rest with
    | some (b, []) => some (a, b)
    | _ => none
  | _ => none

inductive DateFormatKind where
  | ddMM
  | MMdd

/-- `parse(dateString, formatString, new Date(refYear, 0, 1))` followed by
`isValid`: the month token must be 1..12 and the day token must be a valid day
of that month in the reference year, else the result is an invalid date. -/
def dateFnsParse (s : String) (fmt : DateFormatKind) (refYear : Nat) : Option JSDate :=
  match structParse2 s with
  | none => none
  | some (a, b) =>
    let day := match fmt with | .ddMM => a | .MMdd => b
    let month := match fmt with | .ddMM => b | .MMdd => a
    if 1 ≤ month ∧ month ≤ 12 ∧ 1 ≤ day ∧ day ≤ monthLength refYear (month - 1) then
      some ⟨refYear, month - 1, day⟩
    else none

/-- `parseDateString`: empty check, then try `dd.MM` and `MM.dd` in order. -/
def parseDateString (dateString : String) (year : Nat) : Except DateParseError JSDate :=
  if jsTrim dateString = "" then
    .error ⟨.EMPTY_DATE_STRING, "Date string cannot be empty", some dateString⟩
  else
    match dateFnsParse dateString .ddMM year with
    | some d => .ok d
    | none =>
      match dateFnsParse dateString .MMdd year with
      | some d => .ok d
      | none =>
        .error ⟨.DATE_FORMAT_INVALID, "Date must be in format dd.MM or MM.dd", some dateString⟩

/-- `format(date, "dd.MM")`'s zero padding (all produced values are < 100). -/
def pad2 (n : Nat) : String :=
  if n < 10 then String.mk ['0', Char.ofNat (48 + n)]
  else String.mk [Char.ofNat (48 + n / 10), Char.ofNat (48 + n % 10)]

/-- `format(date, "dd.MM")`. -/
def formatDate (d : JSDate) : String := pad2 d.day ++ "." ++ pad2 (d.month + 1)

/-- `formatDateRange`: a single token when both ends have the same `getTime()`,
otherwise `start-end`. -/
def formatDateRange (r : DateRange) : String :=
  if dayNumber r.start = dayNumber r.stop then formatDate r.start
  else formatDate r.start ++ "-" ++ formatDate r.stop

/-- The loop body of `parseDateRangeString` over the trimmed parts. -/
def parseParts (year : Nat) : List String → Except DateParseError (List DateRange)
  | [] => .ok []
  | part :: rest =>
    if part = "" then
      .error ⟨.EMPTY_RANGE_AFTER_SEMICOLON, "Empty date range after semicolon", none⟩
    else if hasChar part.data '-' then
      let segs := (jsSplit part '-').map jsTrim
      let s := segs.getD 0 ""
      let e := segs.getD 1 ""
      if s = "" ∨ e = "" then
        .error ⟨.RANGE_MISSING_DATE, "Missing date in range", some part⟩
      else
        match parseDateString s year with
        | .error err => .error err
        | .ok startDate =>
          match parseDateString e year with
          | .error err => .error err
          | .ok endDate =>
            if dayNumber endDate < dayNumber startDate then
              .error ⟨.RANGE_END_BEFORE_START, "End date cannot be before start date", some part⟩
            else
              match parseParts year rest with
              | .error err => .error err
              | .ok ranges => .ok (⟨startDate, endDate⟩ :: ranges)
    else
      match parseDateString part year with
      | .error err => .error err
      | .ok date =>
        match parseParts year rest with
        | .error err => .error err
        | .ok ranges => .ok (⟨date, date⟩ :: ranges)

/-- `parseDateRangeString(input, year)`. -/
def parseDateRangeString (input : String) (year : Nat) : Except DateParseError (List DateRange) :=
  if jsTrim input = "" then
    .error ⟨.EMPTY_DATE_STRING, "Input string cannot be empty", none⟩
  else
    parseParts year ((jsSplit input ';').map jsTrim)

/-! ## Lemmas about the day array -/

/-- Does the inclusive range `r` cover day index `j`? -/
def coverB (r : DateRange) (j : Nat) : Bool :=
  decide (getDayIndex r.start ≤ j) && decide (j ≤ getDayIndex r.stop)

theorem dayAt_nil (j : Nat) : dayAt [] j = none := by
  cases j <;> rfl

theorem dayAt_jsSet (l : DaysArr) (i : Nat) (v : WorkDayType) (j : Nat) :
    dayAt (jsSet l i v) j = if j = i then some v else dayAt l j := by
  induction l generalizing i j with
  | nil =>
    induction i generalizing j with
    | zero => cases j <;> simp [jsSet, dayAt]
    | succ i ih =>
      cases j with
      | zero => simp [jsSet, dayAt]
      | succ j => simp [jsSet, dayAt, ih j]
  | cons x xs ih =>
    cases i with
    | zero => cases j <;> simp [jsSet, dayAt]
    | succ i =>
      cases j with
      | zero => simp [jsSet, dayAt]
      | succ j => simp [jsSet, dayAt, ih i j]

theorem dayAt_markFrom (l : DaysArr) (s n : Nat) (v : WorkDayType) (j : Nat) :
    dayAt (markFrom l s n v) j = if s ≤ j ∧ j < s + n then some v else dayAt l j := by
  induction n generalizing s l with
  | zero =>
    simp only [markFrom]
    rw [if_neg]
    omega
  | succ n ih =>
    simp only [markFrom]
    rw [ih, dayAt_jsSet]
    by_cases h1 : s + 1 ≤ j ∧ j < s + 1 + n
    · rw [if_pos h1, if_pos (by omega)]
    · rw [if_neg h1]
      by_cases h2 : j = s
      · rw [if_pos h2, if_pos (by omega)]
      · rw [if_neg h2, if_neg (by omega)]

theorem dayAt_markRange (l : DaysArr) (r : DateRange) (v : WorkDayType) (j : Nat) :
    dayAt (markRange l r v) j = if coverB r j then some v else dayAt l j := by
  unfold markRange
  rw [dayAt_markFrom]
  by_cases h : getDayIndex r.start ≤ j ∧ j ≤ getDayIndex r.stop
  · rw [if_pos (by omega), if_pos (by simp [coverB]; omega)]
  · rw [if_neg (by omega), if_neg (by simp [coverB]; omega)]

theorem dayAt_foldMark (rs : List DateRange) (l : DaysArr) (v : WorkDayType) (j : Nat) :
    dayAt (rs.foldl (fun a r => markRange a r v) l) j =
      if rs.any (fun r => coverB r j) then some v else dayAt l j := by
  induction rs generalizing l with
  | nil => simp
  | cons r rs ih =>
    simp only [List.foldl_cons, List.any_cons]
    rw [ih, dayAt_markRange]
    by_cases h1 : rs.any (fun r => coverB r j) = true
    · simp [h1]
    · by_cases h2 : coverB r j = true <;>
        simp [h1, h2, Bool.or_eq_true]

theorem dayAt_foldHoliday (hs : List Holiday) (l : DaysArr) (j : Nat) :
    dayAt (hs.foldl (fun a h => jsSet a (getDayIndex h.date) WorkDayType.HOLIDAY) l) j =
      if hs.any (fun h => getDayIndex h.date == j) then some WorkDayType.HOLIDAY
      else dayAt l j := by
  induction hs generalizing l with
  | nil => simp
  | cons h hs ih =>
    simp only [List.foldl_cons, List.any_cons]
    rw [ih, dayAt_jsSet]
    by_cases h1 : hs.any (fun h => getDayIndex h.date == j) = true
    · simp [h1]
    · by_cases h2 : getDayIndex h.date = j
      · simp [h1, h2]
      · have hh : (getDayIndex h.date == j) = false := by simp [h2]
        have h2' : ¬ j = getDayIndex h.date := fun hj => h2 hj.symm
        simp [h1, hh, h2']

theorem dayAt_weekendPass (y : Nat) (l : DaysArr) (k j : Nat) :
    dayAt (weekendPass y k l) j =
      match dayAt l j with
      | none => none
      | some w => some (if isWeekendIdx y (k + j) then WorkDayType.WEEKEND else w) := by
  induction l generalizing k j with
  | nil => simp [weekendPass, dayAt_nil]
  | cons x xs ih =>
    cases j with
    | zero =>
      cases x with
      | none => simp [weekendPass, dayAt]
      | some w =>
        simp only [weekendPass, dayAt, Nat.add_zero]
        split <;> rename_i hw <;> simp [hw]
    | succ j =>
      simp only [weekendPass, dayAt]
      rw [ih (k + 1) j]
      have : k + 1 + j = k + (j + 1) := by omega
      rw [this]

theorem dayAt_replicate (n : Nat) (x : Option WorkDayType) (j : Nat) :
    dayAt (List.replicate n x) j = if j < n then x else none := by
  induction n generalizing j with
  | zero => simp [dayAt_nil]
  | succ n ih =>
    cases j with
    | zero => simp [List.replicate, dayAt]
    | succ j => simp [List.replicate, dayAt, ih j]

/-- Master description of the classifier: the value of day `j` is determined by
the fixed overwrite priority weekend > holiday > sick > vacation > workday,
with weekends only rewriting days that are actually present in the array. -/
theorem classifyDays_dayAt (year : Nat) (holidays : List Holiday)
    (vacationDates sickDates : List DateRange) (j : Nat) :
    dayAt (classifyDays year holidays vacationDates sickDates) j =
      match
        (if holidays.any (fun h => getDayIndex h.date == j) then some WorkDayType.HOLIDAY
         else if sickDates.any (fun r => coverB r j) then some WorkDayType.SICK
         else if vacationDates.any (fun r => coverB r j) then some WorkDayType.VACATION
         else if j < daysInYear year then some WorkDayType.WORKDAY
         else none)
      with
      | none => none
      | some w => some (if isWeekendIdx year j then WorkDayType.WEEKEND else w) := by
  unfold classifyDays
  rw [dayAt_weekendPass, dayAt_foldHoliday, dayAt_foldMark, dayAt_foldMark, dayAt_replicate]
  simp only [Nat.zero_add]

/-! ## Length of the day array -/

theorem jsSet_length (l : DaysArr) (i : Nat) (v : WorkDayType) :
    (jsSet l i v).length = max l.length (i + 1) := by
  induction l generalizing i with
  | nil =>
    induction i with
    | zero => simp [jsSet]
    | succ i ih => simp [jsSet, ih] <;> omega
  | cons x xs ih =>
    cases i with
    | zero => simp [jsSet] <;> omega
    | succ i => simp [jsSet, ih] <;> omega

theorem markFrom_length (n : Nat) (l : DaysArr) (s : Nat) (v : WorkDayType)
    (h : s + n ≤ l.length) : (markFrom l s n v).length = l.length := by
  induction n generalizing l s with
  | zero => rfl
  | succ n ih =>
    simp only [markFrom]
    have hset : (jsSet l s v).length = l.length := by
      rw [jsSet_length]; omega
    have hrec := ih (jsSet l s v) (s + 1) (by rw [hset]; omega)
    rw [hrec, hset]

theorem markRange_length (l : DaysArr) (r : DateRange) (v : WorkDayType)
    (h : getDayIndex r.stop < l.length) : (markRange l r v).length = l.length := by
  unfold markRange
  by_cases hc : getDayIndex r.stop + 1 - getDayIndex r.start = 0
  · rw [hc]
    rfl
  · exact markFrom_length _ _ _ _ (by omega)

set_option maxRecDepth 8000

theorem foldMark_length (rs : List DateRange) (l : DaysArr) (v : WorkDayType)
    (h : ∀ r ∈ rs, getDayIndex r.stop < l.length) :
    (rs.foldl (fun a r => markRange a r v) l).length = l.length := by
  induction rs generalizing l with
  | nil => rfl
  | cons r rs ih =>
    simp only [List.foldl_cons]
    have h1 : (markRange l r v).length = l.length :=
      markRange_length l r v (h r (by simp))
    rw [ih (markRange l r v) (by rw [h1]; intro x hx; exact h x (by simp [hx])), h1]

theorem foldHoliday_length (hs : List Holiday) (l : DaysArr)
    (h : ∀ x ∈ hs, getDayIndex x.date < l.length) :
    (hs.foldl (fun a x => jsSet a (getDayIndex x.date) WorkDayType.HOLIDAY) l).length
      = l.length := by
  induction hs generalizing l with
  | nil => rfl
  | cons x xs ih =>
    simp only [List.foldl_cons]
    have h1 : (jsSet l (getDayIndex x.date) WorkDayType.HOLIDAY).length = l.length := by
      rw [jsSet_length]
      have := h x (by simp)
      omega
    rw [ih _ (by rw [h1]; intro z hz; exact h z (by simp [hz])), h1]

theorem weekendPass_length (y : Nat) (k : Nat) (l : DaysArr) :
    (weekendPass y k l).length = l.length := by
  induction l generalizing k with
  | nil => rfl
  | cons x xs ih => simp [weekendPass, ih]

/-! ## Claims C1, C2, C5, C6: classifier behaviour -/

/-- C1, as stated, is false: the weekend pass runs last and overwrites the
`HOLIDAY` mark.  Concretely: January 6, 2024 ("Heilige Drei Könige") is a
Saturday; the classifier reports it `WEEKEND`, not `HOLIDAY`. -/
theorem C1_counterexample :
    getDayIndex ⟨(2024 : Nat), 0, 6⟩ = 5 ∧
    isWeekendIdx 2024 5 = true ∧
    dayAt (classifyDays 2024 [⟨"Heilige Drei Könige", ⟨2024, 0, 6⟩⟩] [] []) 5
      = some WorkDayType.WEEKEND ∧
    dayAt (classifyDays 2024 [⟨"Heilige Drei Könige", ⟨2024, 0, 6⟩⟩] [] []) 5
      ≠ some WorkDayType.HOLIDAY := by
  refine ⟨by decide, by decide, by decide, by decide⟩

/-- C1 (amended): a day that is both a declared holiday and falls on a weekend
is classified `WEEKEND` in the per-day status array — the weekend pass is
applied last and overwrites the holiday mark. -/
theorem C1_holiday_on_weekend_is_weekend (year : Nat) (holidays : List Holiday)
    (vacationDates sickDates : List DateRange) (j : Nat)
    (hhol : ∃ h ∈ holidays, getDayIndex h.date = j)
    (hwk : isWeekendIdx year j = true) :
    dayAt (classifyDays year holidays vacationDates sickDates) j
      = some WorkDayType.WEEKEND := by
  rw [classifyDays_dayAt]
  have h1 : holidays.any (fun h => getDayIndex h.date == j) = true := by
    rcases hhol with ⟨h, hm, he⟩
    exact List.any_eq_true.mpr ⟨h, hm, by simp [he]⟩
  simp [h1, hwk]

theorem C1_holiday_on_weekend_is_weekend_witness :
    dayAt (classifyDays 2024 [⟨"Heilige Drei Könige", ⟨2024, 1, 3⟩⟩,
      ⟨"Saturday holiday", ⟨2024, 5, 8⟩⟩] [] []) (getDayIndex ⟨(2024 : Nat), 5, 8⟩)
      = some WorkDayType.WEEKEND :=
  C1_holiday_on_weekend_is_weekend 2024 _ [] [] _
    ⟨⟨"Saturday holiday", ⟨2024, 5, 8⟩⟩, by simp, rfl⟩ (by decide)

/-- C2, as stated, is false: the classifier has no failure channel at all.  A
vacation range lying entirely in the following year (June 1, 2025 against
target year 2024) produces no error; its day is silently mapped to the same
day-of-year index (151) of the target year's array, and a full-length array is
returned. -/
theorem C2_counterexample :
    getDayIndex ⟨(2025 : Nat), 5, 1⟩ = 151 ∧
    dayAt (classifyDays 2024 [] [⟨⟨2025, 5, 1⟩, ⟨2025, 5, 1⟩⟩] []) 151
      = some WorkDayType.VACATION ∧
    (classifyDays 2024 [] [⟨⟨2025, 5, 1⟩, ⟨2025, 5, 1⟩⟩] []).length = 366 := by
  refine ⟨by decide, by decide, by decide⟩

/-- C2 (amended): a vacation range whose days fall outside the target year is
not rejected — classification is total, and each day is written at its
day-of-year index within its *own* year, i.e. the range is silently wrapped
onto the target year's day array (subject only to the final weekend pass). -/
theorem C2_out_of_year_wraps (year : Nat) (d : JSDate) :
    dayAt (classifyDays year [] [⟨d, d⟩] []) (getDayIndex d)
      = some (if isWeekendIdx year (getDayIndex d) then WorkDayType.WEEKEND
              else WorkDayType.VACATION) := by
  rw [classifyDays_dayAt]
  have hcov : coverB ⟨d, d⟩ (getDayIndex d) = true := by simp [coverB]
  simp [hcov]

/-- C5: a day covered by both a vacation range and a sick range, that is
neither a holiday nor a weekend day, is classified `SICK` (sick ranges are
applied after vacation ranges). -/
theorem C5_sick_overrides_vacation (year : Nat) (holidays : List Holiday)
    (vacationDates sickDates : List DateRange) (j : Nat)
    (hvac : ∃ r ∈ vacationDates, getDayIndex r.start ≤ j ∧ j ≤ getDayIndex r.stop)
    (hsick : ∃ r ∈ sickDates, getDayIndex r.start ≤ j ∧ j ≤ getDayIndex r.stop)
    (hhol : ∀ h ∈ holidays, getDayIndex h.date ≠ j)
    (hwk : isWeekendIdx year j = false) :
    dayAt (classifyDays year holidays vacationDates sickDates) j
      = some WorkDayType.SICK := by
  rw [classifyDays_dayAt]
  have h1 : holidays.any (fun h => getDayIndex h.date == j) = false := by
    rw [List.any_eq_false]
    intro h hm
    simp [hhol h hm]
  have h2 : sickDates.any (fun r => coverB r j) = true := by
    rcases hsick with ⟨r, hm, hc1, hc2⟩
    exact List.any_eq_true.mpr ⟨r, hm, by simp [coverB, hc1, hc2]⟩
  simp [h1, h2, hwk]

theorem C5_sick_overrides_vacation_witness :
    dayAt (classifyDays 2024 [⟨"Neujahr", ⟨2024, 0, 1⟩⟩]
      [⟨⟨2024, 2, 24⟩, ⟨2024, 2, 28⟩⟩] [⟨⟨2024, 2, 26⟩, ⟨2024, 2, 27⟩⟩]) 85
      = some WorkDayType.SICK :=
  C5_sick_overrides_vacation 2024 _ _ _ 85
    ⟨⟨⟨2024, 2, 24⟩, ⟨2024, 2, 28⟩⟩, by simp, by decide⟩
    ⟨⟨⟨2024, 2, 26⟩, ⟨2024, 2, 27⟩⟩, by simp, by decide⟩
    (by decide) (by decide)

/-- C6: for inputs whose dates all lie inside the target year, the classifier
returns an array of length exactly 365, or 366 in a leap year. -/
theorem C6_days_array_length (year : Nat) (holidays : List Holiday)
    (vacationDates sickDates : List DateRange)
    (hh : ∀ h ∈ holidays, getDayIndex h.date < daysInYear year)
    (hv : ∀ r ∈ vacationDates, getDayIndex r.stop < daysInYear year)
    (hs : ∀ r ∈ sickDates, getDayIndex r.stop < daysInYear year) :
    (classifyDays year holidays vacationDates sickDates).length
      = if isLeapYear year then 366 else 365 := by
  unfold classifyDays
  rw [weekendPass_length]
  have hrep : (List.replicate (daysInYear year) (some WorkDayType.WORKDAY) : DaysArr).length
      = daysInYear year := by simp
  have l1 := foldMark_length vacationDates
    (List.replicate (daysInYear year) (some WorkDayType.WORKDAY)) WorkDayType.VACATION
    (by rw [hrep]; exact hv)
  have l2 := foldMark_length sickDates _ WorkDayType.SICK
    (by rw [l1, hrep]; exact hs)
  have l3 := foldHoliday_length holidays _
    (by rw [l2, l1, hrep]; exact hh)
  rw [l3, l2, l1, hrep, daysInYear]

theorem C6_days_array_length_witness :
    (classifyDays 2024 [⟨"Neujahr", ⟨2024, 0, 1⟩⟩]
      [⟨⟨2024, 2, 24⟩, ⟨2024, 2, 28⟩⟩] [⟨⟨2024, 5, 10⟩, ⟨2024, 5, 12⟩⟩]).length
      = if isLeapYear 2024 then 366 else 365 :=
  C6_days_array_length 2024 _ _ _ (by decide) (by decide) (by decide)

/-! ## Claim C10: early return when no vacation dates are supplied -/

/-- C10: when `vacationDates` is absent, the loader returns only the
policy-adjusted holiday list: no per-day classification and no monthly
aggregation is performed, even when sick date ranges are supplied. -/
theorem C10_no_vacation_short_circuit (currentYear year : Nat) (subdivision : String)
    (protestantCommunity offOnChristmasEve offOnNewYearsEve : Bool)
    (holidaysIn : List Holiday) (sickDates : Option (List DateRange)) :
    loader currentYear year subdivision protestantCommunity offOnChristmasEve
        offOnNewYearsEve holidaysIn none sickDates
      = LoaderResult.holidaysOnly
          (adjustHolidays year subdivision protestantCommunity offOnChristmasEve
            offOnNewYearsEve holidaysIn) := rfl

/-! ## Claims C3 and C4: the aggregation depends on the wall-clock year -/

/-- A concrete classifier output for target year 2024 (leap): vacation
March 1-5, 2024, no holidays, no sick days. -/
def days24ex : DaysArr :=
  classifyDays 2024 [] [⟨⟨2024, 2, 1⟩, ⟨2024, 2, 5⟩⟩] []

/-- C3 is violated by the code: with identical declared inputs (year 2024,
its vacation ranges, holidays, sick ranges), running the monthly aggregation
under wall-clock year 2024 and under wall-clock year 2025 yields different
summaries — February is sliced with 29 days in one case and 28 in the other,
because `daysPerMonth` builds month boundaries from `new Date().getFullYear()`. -/
theorem C3_wall_clock_dependence :
    ((workdaysPerMonth 2024 days24ex).getD 1 defaultMonthSummary).daysInMonth = 29 ∧
    ((workdaysPerMonth 2025 days24ex).getD 1 defaultMonthSummary).daysInMonth = 28 ∧
    workdaysPerMonth 2024 days24ex ≠ workdaysPerMonth 2025 days24ex := by
  have h29 : ((workdaysPerMonth 2024 days24ex).getD 1 defaultMonthSummary).daysInMonth = 29 := by
    decide
  have h28 : ((workdaysPerMonth 2025 days24ex).getD 1 defaultMonthSummary).daysInMonth = 28 := by
    decide
  refine ⟨h29, h28, fun h => ?_⟩
  rw [h, h28] at h29
  exact absurd h29 (by decide)

/-- The month slicing the spec asks for, written from the spec's words: for
each calendar month of the **target** year, the slice starts at the target
year's day-of-year index of the 1st of the month and has the target year's
month length. -/
def specMonthSlices (year : Nat) (days : DaysArr) : List DaysArr :=
  (List.range 12).map (fun m => (days.drop (monthStartIdx year m)).take (monthLength year m))

/-- C4 is violated by the code: aggregating the 2024 (leap-year) day array
while the wall clock reads 2025 slices February with 28 days instead of 29 and
misaligns every later month, diverging from the spec's target-year slicing;
with the wall clock at 2024 the code agrees with the spec slicing. -/
theorem C4_slices_follow_wall_clock :
    (((daysPerMonth 2025 days24ex).map MonthSlice.monthDays).getD 1 []).length = 28 ∧
    ((specMonthSlices 2024 days24ex).getD 1 []).length = 29 ∧
    (daysPerMonth 2025 days24ex).map MonthSlice.monthDays ≠ specMonthSlices 2024 days24ex ∧
    (daysPerMonth 2024 days24ex).map MonthSlice.monthDays = specMonthSlices 2024 days24ex := by
  have h28 : (((daysPerMonth 2025 days24ex).map MonthSlice.monthDays).getD 1 []).length = 28 := by
    decide
  have h29 : ((specMonthSlices 2024 days24ex).getD 1 []).length = 29 := by
    decide
  refine ⟨h28, h29, fun h => ?_, by decide⟩
  rw [h, h29] at h28
  exact absurd h28 (by decide)

/-! ## Claim C8: how contiguous ranges open and close in the aggregation -/

/-- The spec's example month (31 days): days 10-14 Vacation, day 15 a Workday,
days 16-18 Sick, every other day a Workday. -/
def exampleMonthDays : DaysArr :=
  List.replicate 9 (some WorkDayType.WORKDAY) ++
  List.replicate 5 (some WorkDayType.VACATION) ++
  [some WorkDayType.WORKDAY] ++
  List.replicate 3 (some WorkDayType.SICK) ++
  List.replicate 13 (some WorkDayType.WORKDAY)

/-- A 31-day month whose vacation run (days 10-16) is interrupted only by
weekend days 12-13: days 10-11 Vacation, 12-13 Weekend, 14-16 Vacation. -/
def weekendInterruptedDays : DaysArr :=
  List.replicate 9 (some WorkDayType.WORKDAY) ++
  List.replicate 2 (some WorkDayType.VACATION) ++
  [some WorkDayType.WEEKEND, some WorkDayType.WEEKEND] ++
  List.replicate 3 (some WorkDayType.VACATION) ++
  List.replicate 15 (some WorkDayType.WORKDAY)

/-- C8: one aggregation step leaves the whole state untouched on a `HOLIDAY`,
`WEEKEND` or hole day (such days never close a run); an open vacation run is
closed exactly on a `WORKDAY` or `SICK` day, and the closing entry ends at the
day before the current 0-based position `i` (the `"D.M"` end string uses `i`,
i.e. 1-based day `i` of the month); symmetrically an open sick run is closed
exactly on a `WORKDAY` or `VACATION` day; the finalizer closes a run still
open at month end at the last day `len` of the month.  Through the actual
aggregator: the spec's example month reports vacationRanges `["10.3-14.3"]`
and sickRanges `["16.3-18.3"]`, and a vacation run interrupted only by
weekend days is reported as one contiguous range. -/
theorem C8_run_closing (monthIndex : Nat) (st : AggState) (i len : Nat)
    (d : Option WorkDayType) :
    ((d = some WorkDayType.HOLIDAY ∨ d = some WorkDayType.WEEKEND ∨ d = none) →
      aggStep monthIndex st i d = st) ∧
    (st.currentVacationStart ≠ -1 →
      ((aggStep monthIndex st i d).currentVacationStart = -1 ↔
        (d = some WorkDayType.WORKDAY ∨ d = some WorkDayType.SICK))) ∧
    (st.currentVacationStart ≠ -1 →
      (d = some WorkDayType.WORKDAY ∨ d = some WorkDayType.SICK) →
      (aggStep monthIndex st i d).vacationRanges = st.vacationRanges ++
        [⟨dm (st.currentVacationStart + 1) (monthIndex + 1), dm (i : Int) (monthIndex + 1)⟩]) ∧
    (st.currentSickStart ≠ -1 →
      ((aggStep monthIndex st i d).currentSickStart = -1 ↔
        (d = some WorkDayType.WORKDAY ∨ d = some WorkDayType.VACATION))) ∧
    (st.currentSickStart ≠ -1 →
      (d = some WorkDayType.WORKDAY ∨ d = some WorkDayType.VACATION) →
      (aggStep monthIndex st i d).sickRanges = st.sickRanges ++
        [⟨dm (st.currentSickStart + 1) (monthIndex + 1), dm (i : Int) (monthIndex + 1)⟩]) ∧
    (st.currentVacationStart ≠ -1 →
      (aggFinalize monthIndex len st).vacationRanges = st.vacationRanges ++
        [⟨dm (st.currentVacationStart + 1) (monthIndex + 1), dm (len : Int) (monthIndex + 1)⟩]) ∧
    (st.currentSickStart ≠ -1 →
      (aggFinalize monthIndex len st).sickRanges = st.sickRanges ++
        [⟨dm (st.currentSickStart + 1) (monthIndex + 1), dm (len : Int) (monthIndex + 1)⟩]) ∧
    ((aggregateMonth 2 ⟨"March", 31, exampleMonthDays⟩).vacationRanges
      = [⟨"10.3", "14.3"⟩]) ∧
    ((aggregateMonth 2 ⟨"March", 31, exampleMonthDays⟩).sickRanges
      = [⟨"16.3", "18.3"⟩]) ∧
    ((aggregateMonth 0 ⟨"January", 31, weekendInterruptedDays⟩).vacationRanges
      = [⟨"10.1", "16.1"⟩]) := by
  refine ⟨?_, ?_, ?_, ?_, ?_, ?_, ?_, by decide, by decide, by decide⟩
  · intro h
    rcases h with rfl | rfl | rfl <;> simp [aggStep]
  · intro hv
    rcases d with _ | w
    · simp [aggStep, hv]
    · cases w <;> simp [aggStep, hv] <;> split <;> simp [hv]
  · intro hv hd
    rcases hd with rfl | rfl
    · simp [aggStep, hv] <;> split <;> simp
    · simp [aggStep, hv] <;> split <;> simp
  · intro hs
    rcases d with _ | w
    · simp [aggStep, hs]
    · cases w <;> simp [aggStep, hs] <;> split <;> simp [hs]
  · intro hs hd
    rcases hd with rfl | rfl
    · simp [aggStep, hs] <;> split <;> simp
    · simp [aggStep, hs] <;> split <;> simp
  · intro hv
    simp [aggFinalize, hv] <;> split <;> simp
  · intro hs
    simp [aggFinalize, hs] <;> split <;> simp

theorem C8_run_closing_witness :
    ((aggStep 2 ⟨[], [], 3, 0, 9, -1⟩ 14 (some WorkDayType.WORKDAY)).currentVacationStart
        = -1) ∧
    ((aggStep 2 ⟨[], [], 3, 0, 9, -1⟩ 14 (some WorkDayType.WORKDAY)).vacationRanges
      = [] ++ [⟨dm ((9 : Int) + 1) (2 + 1), dm ((14 : Nat) : Int) (2 + 1)⟩]) ∧
    (aggStep 2 ⟨[], [], 3, 0, 9, -1⟩ 12 (some WorkDayType.WEEKEND)
      = ⟨[], [], 3, 0, 9, -1⟩) ∧
    ((aggFinalize 2 31 ⟨[], [], 3, 0, 9, -1⟩).vacationRanges
      = [] ++ [⟨dm ((9 : Int) + 1) (2 + 1), dm ((31 : Nat) : Int) (2 + 1)⟩]) ∧
    ((aggStep 2 ⟨[], [], 0, 2, -1, 15⟩ 17 (some WorkDayType.VACATION)).currentSickStart
        = -1) ∧
    ((aggregateMonth 2 ⟨"March", 31, exampleMonthDays⟩).vacationRanges
      = [⟨"10.3", "14.3"⟩]) := by
  have h := C8_run_closing 2 ⟨[], [], 3, 0, 9, -1⟩ 14 31 (some WorkDayType.WORKDAY)
  have hw := C8_run_closing 2 ⟨[], [], 3, 0, 9, -1⟩ 12 31 (some WorkDayType.WEEKEND)
  have hs := C8_run_closing 2 ⟨[], [], 0, 2, -1, 15⟩ 17 31 (some WorkDayType.VACATION)
  exact ⟨(h.2.1 (by decide)).mpr (Or.inl rfl),
    h.2.2.1 (by decide) (Or.inl rfl),
    hw.1 (Or.inr (Or.inl rfl)),
    h.2.2.2.2.2.1 (by decide),
    (hs.2.2.2.1 (by decide)).mpr (Or.inr rfl),
    h.2.2.2.2.2.2.2.1⟩

/-! ## String-level lemmas for the date parser -/

theorem dropWhile_eq_self_of (p : Char → Bool) (l : List Char)
    (h : ∀ c ∈ l, p c = false) : l.dropWhile p = l := by
  cases l with
  | nil => rfl
  | cons c cs => simp [List.dropWhile, h c (by simp)]

theorem trimChars_eq_self (l : List Char) (h : ∀ c ∈ l, c.isWhitespace = false) :
    trimChars l = l := by
  unfold trimChars
  rw [dropWhile_eq_self_of _ _ h, dropWhile_eq_self_of, List.reverse_reverse]
  intro c hc
  exact h c (by simpa using hc)

theorem jsTrim_eq_self (s : String) (h : ∀ c ∈ s.data, c.isWhitespace = false) :
    jsTrim s = s := by
  unfold jsTrim
  rw [trimChars_eq_self _ h]

theorem splitChars_of_not_mem (sep : Char) (l : List Char) (h : sep ∉ l) :
    splitChars sep l = [l] := by
  induction l with
  | nil => rfl
  | cons c cs ih =>
    have hc : ¬ c = sep := by
      intro hcc
      exact h (by simp [hcc])
    have hcs : sep ∉ cs := fun hm => h (by simp [hm])
    simp [splitChars, hc, ih hcs]

theorem splitChars_append (sep : Char) (l1 l2 : List Char) (h : sep ∉ l1) :
    splitChars sep (l1 ++ sep :: l2) = l1 :: splitChars sep l2 := by
  induction l1 with
  | nil => simp [splitChars]
  | cons c cs ih =>
    have hc : ¬ c = sep := by
      intro hcc
      exact h (by simp [hcc])
    have hcs : sep ∉ cs := fun hm => h (by simp [hm])
    simp [splitChars, hc, ih hcs]

theorem string_ne_empty_of_data (s : String) (h : s.data ≠ []) : s ≠ "" := by
  intro he
  exact h (by rw [he])

/-- Every character emitted by `pad2` on a value below 100 is a decimal digit
(hence not whitespace, not `-`, `;` or `.`). -/
theorem pad2_chars : ∀ n, n < 100 → ∀ c ∈ (pad2 n).data, c.isDigit = true := by
  decide

theorem pad2_data_ne_nil : ∀ n, n < 100 → (pad2 n).data ≠ [] := by
  decide

theorem digit_not_special (c : Char) (h : c.isDigit = true) :
    c.isWhitespace = false ∧ c ≠ '-' ∧ c ≠ ';' := by
  refine ⟨?_, ?_, ?_⟩
  · simp [Char.isDigit] at h
    obtain ⟨h1, h2⟩ := h
    simp [Char.isWhitespace]
    refine ⟨⟨⟨?_, ?_⟩, ?_⟩, ?_⟩ <;> intro he <;> subst he <;> revert h1 h2 <;> decide
  · intro hc
    rw [hc] at h
    simp [Char.isDigit] at h
  · intro hc
    rw [hc] at h
    simp [Char.isDigit] at h

theorem monthLength_le_31 (y m : Nat) : monthLength y m ≤ 31 := by
  rcases m with _|_|_|_|_|_|_|_|_|_|_|_|mm <;>
    simp only [monthLength] <;> (try split) <;> omega

theorem monthLength_pos (y m : Nat) (h : m < 12) : 1 ≤ monthLength y m := by
  rcases m with _|_|_|_|_|_|_|_|_|_|_|_|mm <;>
    simp only [monthLength] <;> (try split) <;> omega

/-- Parsing inverts padding: the structural parser recovers the two numbers
from a formatted `dd.MM`-shaped token. -/
theorem structParse2_pad2 : ∀ d, d < 32 → ∀ m, m < 13 →
    structParse2 (pad2 d ++ "." ++ pad2 m) = some (d, m) := by
  decide

theorem formatDate_data (dte : JSDate) :
    (formatDate dte).data
      = (pad2 dte.day).data ++ '.' :: (pad2 (dte.month + 1)).data := by
  unfold formatDate
  rw [String.data_append, String.data_append]
  simp

theorem formatDate_chars (dte : JSDate) (hd : dte.day < 100) (hm : dte.month + 1 < 100) :
    ∀ c ∈ (formatDate dte).data, c.isWhitespace = false ∧ c ≠ '-' ∧ c ≠ ';' := by
  rw [formatDate_data]
  intro c hc
  rcases List.mem_append.mp hc with h1 | h2
  · exact digit_not_special c (pad2_chars dte.day hd c h1)
  · rcases List.mem_cons.mp h2 with rfl | h3
    · refine ⟨by decide, by decide, by decide⟩
    · exact digit_not_special c (pad2_chars (dte.month + 1) hm c h3)

theorem formatDate_ne_empty (dte : JSDate) : formatDate dte ≠ "" := by
  apply string_ne_empty_of_data
  rw [formatDate_data]
  simp

/-- `parse` with pattern `dd.MM` recovers a valid formatted date. -/
theorem dateFnsParse_format (year : Nat) (dte : JSDate) (hy : dte.year = year)
    (hm : dte.month < 12) (hd1 : 1 ≤ dte.day) (hd2 : dte.day ≤ monthLength year dte.month) :
    dateFnsParse (formatDate dte) .ddMM year = some dte := by
  have hd31 : dte.day ≤ 31 := le_trans hd2 (monthLength_le_31 year dte.month)
  have hsp : structParse2 (formatDate dte) = some (dte.day, dte.month + 1) := by
    have h := structParse2_pad2 dte.day (by omega) (dte.month + 1) (by omega)
    unfold formatDate
    exact h
  unfold dateFnsParse
  rw [hsp]
  have hmm : dte.month + 1 - 1 = dte.month := by omega
  show (if 1 ≤ dte.month + 1 ∧ dte.month + 1 ≤ 12 ∧ 1 ≤ dte.day ∧
      dte.day ≤ monthLength year (dte.month + 1 - 1) then
      some (⟨year, dte.month + 1 - 1, dte.day⟩ : JSDate) else none) = some dte
  rw [if_pos ⟨by omega, by omega, hd1, by rw [hmm]; exact hd2⟩, hmm, ← hy]

theorem parseDateString_format (year : Nat) (dte : JSDate) (hy : dte.year = year)
    (hm : dte.month < 12) (hd1 : 1 ≤ dte.day) (hd2 : dte.day ≤ monthLength year dte.month) :
    parseDateString (formatDate dte) year = .ok dte := by
  have hch := formatDate_chars dte
    (by have := monthLength_le_31 year dte.month; omega) (by omega)
  have htr : jsTrim (formatDate dte) = formatDate dte :=
    jsTrim_eq_self _ (fun c hc => (hch c hc).1)
  unfold parseDateString
  rw [if_neg (by rw [htr]; exact formatDate_ne_empty dte),
    dateFnsParse_format year dte hy hm hd1 hd2]

theorem dropWhile_eq_nil_imp (p : Char → Bool) (l : List Char)
    (h : l.dropWhile p = []) : ∀ x ∈ l, p x = true := by
  induction l with
  | nil => simp
  | cons c cs ih =>
    by_cases hc : p c = true
    · intro x hx
      rcases List.mem_cons.mp hx with rfl | hx2
      · exact hc
      · exact ih (by simpa [List.dropWhile, hc] using h) x hx2
    · simp [List.dropWhile, Bool.eq_false_iff.mpr hc] at h

theorem trimChars_ne_nil (c : Char) (cs : List Char) (hc : c.isWhitespace = false) :
    trimChars (c :: cs) ≠ [] := by
  unfold trimChars
  intro hnil
  rw [List.reverse_eq_nil_iff] at hnil
  have hdrop : (c :: cs).dropWhile Char.isWhitespace = c :: cs := by
    simp [List.dropWhile, hc]
  rw [hdrop] at hnil
  have hall := dropWhile_eq_nil_imp _ _ hnil c (by simp)
  rw [hc] at hall
  exact Bool.false_ne_true hall

theorem structParse2_trim_ne (t : String) (p : Nat × Nat)
    (h : structParse2 t = some p) : jsTrim t ≠ "" := by
  unfold structParse2 at h
  cases hd : t.data with
  | nil => rw [hd] at h; simp [parseUpTo2Digits] at h
  | cons c cs =>
    rw [hd] at h
    by_cases hc : c.isDigit = true
    · intro he
      have hdata : (jsTrim t).data = trimChars t.data := rfl
      rw [he] at hdata
      rw [hd] at hdata
      exact trimChars_ne_nil c cs (digit_not_special c hc).1 hdata.symm
    · simp [parseUpTo2Digits, hc] at h

theorem dateFnsParse_some_structParse (t : String) (fmt : DateFormatKind) (y : Nat)
    (d : JSDate) (h : dateFnsParse t fmt y = some d) :
    ∃ p, structParse2 t = some p := by
  unfold dateFnsParse at h
  cases hsp : structParse2 t with
  | none => rw [hsp] at h; exact absurd h (by simp)
  | some p => exact ⟨p, rfl⟩

/-- C9: the parser tries `dd.MM` before `MM.dd`; the first calendar-valid
interpretation wins (so a token valid under both resolves as `dd.MM`), and a
non-blank token valid under neither format fails with `DATE_FORMAT_INVALID`
carrying the offending token. -/
theorem C9_dual_format_priority (t : String) (year : Nat) :
    (∀ d1 d2, dateFnsParse t .ddMM year = some d1 → dateFnsParse t .MMdd year = some d2 →
      parseDateString t year = .ok d1) ∧
    (dateFnsParse t .ddMM year = none → ∀ d2, dateFnsParse t .MMdd year = some d2 →
      parseDateString t year = .ok d2) ∧
    (dateFnsParse t .ddMM year = none → dateFnsParse t .MMdd year = none →
      jsTrim t ≠ "" →
      parseDateString t year
        = .error ⟨.DATE_FORMAT_INVALID, "Date must be in format dd.MM or MM.dd", some t⟩) := by
  refine ⟨?_, ?_, ?_⟩
  · intro d1 d2 h1 h2
    obtain ⟨p, hp⟩ := dateFnsParse_some_structParse t .ddMM year d1 h1
    have htr := structParse2_trim_ne t p hp
    unfold parseDateString
    rw [if_neg htr, h1]
  · intro h1 d2 h2
    obtain ⟨p, hp⟩ := dateFnsParse_some_structParse t .MMdd year d2 h2
    have htr := structParse2_trim_ne t p hp
    unfold parseDateString
    rw [if_neg htr, h1, h2]
  · intro h1 h2 htr
    unfold parseDateString
    rw [if_neg htr, h1, h2]

theorem C9_dual_format_priority_witness :
    (parseDateString "03.04" 2024 = .ok ⟨2024, 3, 3⟩) ∧
    (parseDateString "31.02" 2024
      = .error ⟨.DATE_FORMAT_INVALID, "Date must be in format dd.MM or MM.dd",
          some "31.02"⟩) :=
  ⟨(C9_dual_format_priority "03.04" 2024).1 ⟨2024, 3, 3⟩ ⟨2024, 2, 4⟩
      (by decide) (by decide),
   (C9_dual_format_priority "31.02" 2024).2.2 (by decide) (by decide) (by decide)⟩

theorem monthStartIdx_mono (y : Nat) (a b : Nat) (h : a ≤ b) :
    monthStartIdx y a ≤ monthStartIdx y b := by
  induction b with
  | zero =>
    have : a = 0 := by omega
    subst this
    exact Nat.le_refl _
  | succ b ih =>
    by_cases hab : a ≤ b
    · refine le_trans (ih hab) ?_
      show monthStartIdx y b ≤ monthStartIdx y b + monthLength y b
      omega
    · have : a = b + 1 := by omega
      subst this
      exact Nat.le_refl _

/-- Within one year, a valid (month, day) pair is determined by its
day-of-year offset. -/
theorem date_component_inj (y m m' d d' : Nat) (hm : m < 12) (hm' : m' < 12)
    (hd1 : 1 ≤ d) (hd2 : d ≤ monthLength y m) (hd1' : 1 ≤ d') (hd2' : d' ≤ monthLength y m')
    (h : monthStartIdx y m + d = monthStartIdx y m' + d') : m = m' ∧ d = d' := by
  rcases Nat.lt_trichotomy m m' with hlt | heq | hgt
  · exfalso
    have h1 : monthStartIdx y (m + 1) ≤ monthStartIdx y m' := monthStartIdx_mono y (m + 1) m' hlt
    have h2 : monthStartIdx y (m + 1) = monthStartIdx y m + monthLength y m := rfl
    omega
  · subst heq
    exact ⟨rfl, by omega⟩
  · exfalso
    have h1 : monthStartIdx y (m' + 1) ≤ monthStartIdx y m := monthStartIdx_mono y (m' + 1) m hgt
    have h2 : monthStartIdx y (m' + 1) = monthStartIdx y m' + monthLength y m' := rfl
    omega

theorem parseParts_single (year : Nat) (t : String) (dte : JSDate)
    (ht : parseDateString t year = .ok dte)
    (hne : t ≠ "") (hnd : hasChar t.data '-' = false) :
    parseParts year [t] = .ok [⟨dte, dte⟩] := by
  unfold parseParts
  rw [if_neg hne, if_neg (by simp [hnd]), ht]
  rfl

theorem parseParts_range (year : Nat) (t1 t2 : String) (d1 d2 : JSDate)
    (h1 : parseDateString t1 year = .ok d1) (h2 : parseDateString t2 year = .ok d2)
    (hdat1 : t1.data ≠ []) (hdat2 : t2.data ≠ [])
    (hnm1 : '-' ∉ t1.data) (hnm2 : '-' ∉ t2.data)
    (hws1 : ∀ c ∈ t1.data, c.isWhitespace = false)
    (hws2 : ∀ c ∈ t2.data, c.isWhitespace = false)
    (hord : ¬ dayNumber d2 < dayNumber d1) :
    parseParts year [t1 ++ "-" ++ t2] = .ok [⟨d1, d2⟩] := by
  have hdata : (t1 ++ "-" ++ t2).data = t1.data ++ '-' :: t2.data := by
    rw [String.data_append, String.data_append]
    simp
  have hne : (t1 ++ "-" ++ t2) ≠ "" := string_ne_empty_of_data _ (by rw [hdata]; simp)
  have hhas : hasChar (t1 ++ "-" ++ t2).data '-' = true := by
    rw [hdata]
    simp [hasChar]
  have hsplit : jsSplit (t1 ++ "-" ++ t2) '-' = [t1, t2] := by
    unfold jsSplit
    rw [hdata, splitChars_append '-' t1.data t2.data hnm1,
      splitChars_of_not_mem '-' t2.data hnm2]
    rfl
  have htrs : (jsSplit (t1 ++ "-" ++ t2) '-').map jsTrim = [t1, t2] := by
    rw [hsplit]
    simp [jsTrim_eq_self t1 hws1, jsTrim_eq_self t2 hws2]
  unfold parseParts
  rw [if_neg hne, if_pos hhas, htrs]
  have hne1 : ¬ (([t1, t2].getD 0 "" = "") ∨ ([t1, t2].getD 1 "" = "")) := by
    simp only [List.getD]
    push_neg
    exact ⟨string_ne_empty_of_data t1 hdat1, string_ne_empty_of_data t2 hdat2⟩
  rw [if_neg hne1]
  have e0 : [t1, t2].getD 0 "" = t1 := rfl
  have e1 : [t1, t2].getD 1 "" = t2 := rfl
  rw [e0, e1, h1, h2]
  simp [hord, parseParts]

theorem parseDateRangeString_single_part (input : String) (year : Nat)
    (hws : ∀ c ∈ input.data, c.isWhitespace = false)
    (hsc : ';' ∉ input.data) (hne : input ≠ "") :
    parseDateRangeString input year = parseParts year [input] := by
  have htr : jsTrim input = input := jsTrim_eq_self input hws
  unfold parseDateRangeString
  rw [if_neg (by rw [htr]; exact hne)]
  have hsp : jsSplit input ';' = [input] := by
    unfold jsSplit
    rw [splitChars_of_not_mem ';' input.data hsc]
    rfl
  rw [hsp]
  simp [htr]

/-- C7: parsing the output of `formatDateRange` back with the same year yields
exactly the original range (round trip), for any valid in-year range. -/
theorem C7_format_parse_roundtrip (year : Nat) (r : DateRange)
    (hys : r.start.year = year) (hye : r.stop.year = year)
    (hms : r.start.month < 12) (hme : r.stop.month < 12)
    (hds1 : 1 ≤ r.start.day) (hds2 : r.start.day ≤ monthLength year r.start.month)
    (hde1 : 1 ≤ r.stop.day) (hde2 : r.stop.day ≤ monthLength year r.stop.month)
    (hle : dayNumber r.start ≤ dayNumber r.stop) :
    parseDateRangeString (formatDateRange r) year = .ok [r] := by
  have hch1 := formatDate_chars r.start
    (by have := monthLength_le_31 year r.start.month; omega) (by omega)
  have hch2 := formatDate_chars r.stop
    (by have := monthLength_le_31 year r.stop.month; omega) (by omega)
  have hp1 := parseDateString_format year r.start hys hms hds1 hds2
  have hp2 := parseDateString_format year r.stop hye hme hde1 hde2
  by_cases heq : dayNumber r.start = dayNumber r.stop
  · rw [formatDateRange, if_pos heq]
    rw [parseDateRangeString_single_part _ year (fun c hc => (hch1 c hc).1)
      (fun hmem => (hch1 _ hmem).2.2 rfl) (formatDate_ne_empty r.start)]
    have hnd : hasChar (formatDate r.start).data '-' = false := by
      simp only [hasChar, List.any_eq_false]
      intro c hc
      simp [(hch1 c hc).2.1]
    rw [parseParts_single year _ r.start hp1 (formatDate_ne_empty r.start) hnd]
    have hse : r.start = r.stop := by
      have hgd : monthStartIdx year r.start.month + r.start.day
          = monthStartIdx year r.stop.month + r.stop.day := by
        unfold dayNumber getDayIndex at heq
        rw [hys, hye] at heq
        omega
      obtain ⟨hmq, hdq⟩ := date_component_inj year r.start.month r.stop.month
        r.start.day r.stop.day hms hme hds1 hds2 hde1 hde2 hgd
      have h1 : r.start = ⟨year, r.start.month, r.start.day⟩ := by
        rw [← hys]
      have h2 : r.stop = ⟨year, r.stop.month, r.stop.day⟩ := by
        rw [← hye]
      rw [h1, h2, hmq, hdq]
    have hr : ({ start := r.start, stop := r.start } : DateRange)
        = { start := r.start, stop := r.stop } := by rw [hse]
    rw [show ({ start := r.start, stop := r.start } : DateRange) = r from hr]
  · rw [formatDateRange, if_neg heq]
    have hdata : (formatDate r.start ++ "-" ++ formatDate r.stop).data
        = (formatDate r.start).data ++ '-' :: (formatDate r.stop).data := by
      rw [String.data_append, String.data_append]
      simp
    have hwsall : ∀ c ∈ (formatDate r.start ++ "-" ++ formatDate r.stop).data,
        c.isWhitespace = false := by
      rw [hdata]
      intro c hc
      rcases List.mem_append.mp hc with hl | hr
      · exact (hch1 c hl).1
      · rcases List.mem_cons.mp hr with rfl | hr2
        · decide
        · exact (hch2 c hr2).1
    have hscall : ';' ∉ (formatDate r.start ++ "-" ++ formatDate r.stop).data := by
      rw [hdata]
      intro hc
      rcases List.mem_append.mp hc with hl | hr
      · exact (hch1 _ hl).2.2 rfl
      · rcases List.mem_cons.mp hr with heq2 | hr2
        · exact absurd heq2 (by decide)
        · exact (hch2 _ hr2).2.2 rfl
    have hneall : (formatDate r.start ++ "-" ++ formatDate r.stop) ≠ "" :=
      string_ne_empty_of_data _ (by rw [hdata]; simp)
    rw [parseDateRangeString_single_part _ year hwsall hscall hneall]
    rw [parseParts_range year (formatDate r.start) (formatDate r.stop) r.start r.stop
      hp1 hp2
      (by rw [formatDate_data]; simp)
      (by rw [formatDate_data]; simp)
      (fun hm => (hch1 _ hm).2.1 rfl)
      (fun hm => (hch2 _ hm).2.1 rfl)
      (fun c hc => (hch1 c hc).1)
      (fun c hc => (hch2 c hc).1)
      (by omega)]

theorem C7_format_parse_roundtrip_witness :
    (parseDateRangeString (formatDateRange ⟨⟨2024, 2, 24⟩, ⟨2024, 2, 28⟩⟩) 2024
      = .ok [⟨⟨2024, 2, 24⟩, ⟨2024, 2, 28⟩⟩]) ∧
    (parseDateRangeString (formatDateRange ⟨⟨2024, 3, 1⟩, ⟨2024, 3, 1⟩⟩) 2024
      = .ok [⟨⟨2024, 3, 1⟩, ⟨2024, 3, 1⟩⟩]) :=
  ⟨C7_format_parse_roundtrip 2024 ⟨⟨2024, 2, 24⟩, ⟨2024, 2, 28⟩⟩ rfl rfl
      (by decide) (by decide) (by decide) (by decide) (by decide) (by decide) (by decide),
   C7_format_parse_roundtrip 2024 ⟨⟨2024, 3, 1⟩, ⟨2024, 3, 1⟩⟩ rfl rfl
      (by decide) (by decide) (by decide) (by decide) (by decide) (by decide) (by decide)⟩

end Workhour
